import Mathlib

/-!
# Verification of the client-side performance-metrics aggregator

Shallow embedding of the `usePerformanceMonitor` hook family of this
repository (the two near-duplicate implementations, called V6 and V7 below
after their source files), together with proofs of the specified properties.

Modelling conventions:
* JavaScript numbers that undergo division (`value`, averages, relative
  change, scores) are modelled as `ℚ`; timestamps and time windows as `ℤ`.
* `Array.prototype.slice(-k)` is `jsSliceLast`; note `slice(-0)` in
  JavaScript is `slice(0)`, i.e. the whole array, which the model preserves.
* JavaScript truthiness of the optional arguments is modelled faithfully:
  a `0` time range and an empty-string name filter are falsy and disable
  the corresponding filter, and a caller-supplied `timestamp` of `0` is
  falsy and is replaced by the current time (`t || Date.now()`).
* `Math.round` (round half toward plus infinity) is `jsRound`.
* The browser `localStorage` boundary is modelled by a small `Storage`
  state whose primitive operations return `Except StorageErr`; a `try/catch`
  in the source corresponds to a `match` that absorbs the `error` case.
* Division of rationals by zero yields `0` in Lean; the only place this can
  diverge from JavaScript (which yields an infinity) is the relative trend
  change when the first-half mean is `0`, and the trend theorems carry an
  explicit nonzero hypothesis there.
-/

namespace PerfMon

/-- The `rating` field: `'good' | 'needs-improvement' | 'poor'`. -/
inductive Rating where
  | good
  | needsImprovement
  | poor
deriving DecidableEq, Repr

/-- The `trend` field: `'improving' | 'stable' | 'declining'`. -/
inductive Trend where
  | improving
  | stable
  | declining
deriving DecidableEq, Repr

/-- The `PerformanceMetric` record shape (the optional `metadata` field of
V6 is never read by any of the operations and is omitted). -/
structure Metric where
  name : String
  value : ℚ
  rating : Rating
  timestamp : ℤ
  url : Option String := none
deriving DecidableEq, Repr

/-- `l.slice(-k)` on a JavaScript array: the last `k` elements, except that
`slice(-0)` is `slice(0)`, the whole array. -/
def jsSliceLast (l : List α) (k : Nat) : List α :=
  if k = 0 then l else l.drop (l.length - k)

/-- `Math.round`: round half toward plus infinity. -/
def jsRound (q : ℚ) : ℤ := ⌊q + 1/2⌋

/-- The mean used throughout `getAverages`:
`values.reduce((sum, val) => sum + val, 0) / values.length`. -/
def listMean (l : List ℚ) : ℚ := l.sum / l.length

/-- The metric-name input to `recordMetric`: all fields of `Metric` with
`timestamp` optional (`Omit<PerformanceMetric, 'timestamp'> & { timestamp?: number }`). -/
structure MetricInput where
  name : String
  value : ℚ
  rating : Rating
  timestamp : Option ℤ := none
  url : Option String := none
deriving DecidableEq, Repr

/-- `metric.timestamp || Date.now()`: an absent or falsy (`0`) timestamp is
replaced by the current time. -/
def jsOrTimestamp (t : Option ℤ) (now : ℤ) : ℤ :=
  match t with
  | some v => if v = 0 then now else v
  | none => now

/-- `metric.url || window.location.pathname`: an absent or falsy (empty)
url is replaced by the current path (itself optional outside a browser). -/
def jsOrUrl (u : Option String) (path : Option String) : Option String :=
  match u with
  | some s => if s = "" then path else some s
  | none => path

/-- The normalized metric built at the top of `recordMetric`. -/
def mkMetric (now : ℤ) (path : Option String) (mi : MetricInput) : Metric :=
  { name := mi.name
    value := mi.value
    rating := mi.rating
    timestamp := jsOrTimestamp mi.timestamp now
    url := jsOrUrl mi.url path }

/-- The state update of `recordMetric`:
`prev => [...prev, newMetric].slice(-maxStoredMetrics)`. -/
def recordMetric (cap : Nat) (prev : List Metric) (m : Metric) : List Metric :=
  jsSliceLast (prev ++ [m]) cap

/-- A whole session of `recordMetric` calls, each with its own clock value,
starting from the empty store. -/
def runRecords (cap : Nat) (path : Option String)
    (calls : List (ℤ × MetricInput)) : List Metric :=
  calls.foldl (fun s c => recordMetric cap s (mkMetric c.1 path c.2)) []

/-- `getMetrics(metricName?, timeRange?)`: filter by exact name when the
name is truthy, then by `m.timestamp > Date.now() - timeRange` when the
time range is truthy. Identical in both source files. -/
def getMetrics (metrics : List Metric) (now : ℤ)
    (metricName : Option String) (timeRange : Option ℤ) : List Metric :=
  let f1 :=
    match metricName with
    | some n => if n = "" then metrics else metrics.filter (fun m => m.name = n)
    | none => metrics
  match timeRange with
  | some w => if w = 0 then f1 else f1.filter (fun m => decide (now - w < m.timestamp))
  | none => f1

/-- First-occurrence order of the metric names, i.e. the key order of the
object built by `metrics.reduce(...)` grouping. -/
def namesInOrder (ms : List Metric) : List String :=
  ms.foldl (fun acc m => if m.name ∈ acc then acc else acc ++ [m.name]) []

/-- The `['LCP', 'CLS', 'FID', 'TTFB']` list of lower-is-better metrics. -/
def lowerBetterNames : List String := ["LCP", "CLS", "FID", "TTFB"]

/-- The rating vote of `getAverages`: over the last five entries,
`goodCount > ratings.length / 2 ? 'good' : goodCount > 0 ? 'needs-improvement' : 'poor'`. -/
def aggRating (metricList : List Metric) : Rating :=
  let recentMetrics := jsSliceLast metricList 5
  let goodCount := (recentMetrics.filter (fun m => m.rating = Rating.good)).length
  if (recentMetrics.length : ℚ) / 2 < (goodCount : ℚ) then Rating.good
  else if 0 < goodCount then Rating.needsImprovement
  else Rating.poor

/-- The trend computation of `getAverages`: for at least ten samples, split
at `Math.floor(length / 2)`, compare the half means, and classify a relative
change beyond the ten-percent threshold by the metric polarity. -/
def aggTrend (name : String) (metricList : List Metric) : Trend :=
  if 10 ≤ metricList.length then
    let midPoint := metricList.length / 2
    let firstHalf := metricList.take midPoint
    let secondHalf := metricList.drop midPoint
    let firstAvg := listMean (firstHalf.map (fun m => m.value))
    let secondAvg := listMean (secondHalf.map (fun m => m.value))
    let change := (secondAvg - firstAvg) / firstAvg
    if 1/10 < |change| then
      if name ∈ lowerBetterNames then
        if change < 0 then Trend.improving else Trend.declining
      else
        if 0 < change then Trend.improving else Trend.declining
    else Trend.stable
  else Trend.stable

/-- `Math.max(...metricList.map(m => m.timestamp))` (groups are nonempty;
the empty case defaults to `0` in the model). -/
def lastUpdatedOf (metricList : List Metric) : ℤ :=
  ((metricList.map (fun m => m.timestamp)).max?).getD 0

/-- The score assigned to the latest rating of a core vital in
`getPerformanceScore`. -/
def scoreOfRating : Rating → ℚ
  | Rating.good => 100
  | Rating.needsImprovement => 75
  | Rating.poor => 25

/-- The `['LCP', 'FID', 'CLS']` core vitals list of `getPerformanceScore`. -/
def coreVitals : List String := ["LCP", "FID", "CLS"]

/-- The body of `getPerformanceScore`, shared shape of both source files:
fold over the core vitals, scoring the latest metric of each vital present
among the metrics of the last 24 hours, then `Math.round(score / count)`
or `null` when `count` is zero. -/
def performanceScoreOf (metrics : List Metric) (now : ℤ) : Option ℤ :=
  let recentMetrics := getMetrics metrics now none (some (24 * 60 * 60 * 1000))
  let acc := coreVitals.foldl
    (fun (acc : ℚ × Nat) vital =>
      let vitalMetrics := recentMetrics.filter (fun m => m.name = vital)
      match vitalMetrics.getLast? with
      | some latestMetric => (acc.1 + scoreOfRating latestMetric.rating, acc.2 + 1)
      | none => acc)
    (0, 0)
  if 0 < acc.2 then some (jsRound (acc.1 / (acc.2 : ℚ))) else none

namespace V6

/-- Per-name entry of the `MetricAverages` result of the first
implementation (file `part_006`), including its `lastUpdated` field. -/
structure Aggregate where
  average : ℚ
  count : Nat
  rating : Rating
  trend : Trend
  lastUpdated : ℤ
deriving DecidableEq, Repr

/-- The entry computed for one name group of `getAverages` of the first
implementation: the group is the in-order sublist of the relevant metrics
carrying that name. -/
def aggregateFor (relevantMetrics : List Metric) (name : String) : Aggregate :=
  let metricList := relevantMetrics.filter (fun m => m.name = name)
  { average := listMean (metricList.map (fun m => m.value))
    count := metricList.length
    rating := aggRating metricList
    trend := aggTrend name metricList
    lastUpdated := lastUpdatedOf metricList }

/-- `getAverages(timeRange?)` of the first implementation: group the
queried metrics by name in first-occurrence order and compute each group's
mean, count, rating vote, trend, and last-updated timestamp. -/
def getAverages (metrics : List Metric) (now : ℤ) (timeRange : Option ℤ) :
    List (String × Aggregate) :=
  let relevantMetrics := getMetrics metrics now none timeRange
  (namesInOrder relevantMetrics).map (fun name =>
    (name, aggregateFor relevantMetrics name))

/-- `getPerformanceScore()` of the first implementation. -/
def getPerformanceScore (metrics : List Metric) (now : ℤ) : Option ℤ :=
  performanceScoreOf metrics now

end V6

namespace V7

/-- Per-name entry of the `MetricAverages` result of the second
implementation (file `part_007`), which has no `lastUpdated` field. -/
structure Aggregate where
  average : ℚ
  count : Nat
  rating : Rating
  trend : Trend
deriving DecidableEq, Repr

/-- The entry computed for one name group of `getAverages` of the second
implementation. -/
def aggregateFor (relevantMetrics : List Metric) (name : String) : Aggregate :=
  let metricList := relevantMetrics.filter (fun m => m.name = name)
  { average := listMean (metricList.map (fun m => m.value))
    count := metricList.length
    rating := aggRating metricList
    trend := aggTrend name metricList }

/-- `getAverages(timeRange?)` of the second implementation (identical
grouping and arithmetic, smaller result record). -/
def getAverages (metrics : List Metric) (now : ℤ) (timeRange : Option ℤ) :
    List (String × Aggregate) :=
  let relevantMetrics := getMetrics metrics now none timeRange
  (namesInOrder relevantMetrics).map (fun name =>
    (name, aggregateFor relevantMetrics name))

/-- `getPerformanceScore()` of the second implementation. -/
def getPerformanceScore (metrics : List Metric) (now : ℤ) : Option ℤ :=
  performanceScoreOf metrics now

end V7

/-! ## The persistence boundary

`localStorage` is modelled as a single-key store whose primitive operations
fail exactly when the storage is in a failing state (quota exceeded or
storage disabled); the stored blob may also be present but corrupt
(malformed JSON). A `try/catch` in the source corresponds to a `match`
absorbing the `error` case; code outside any `try/catch` propagates it. -/

/-- A persistence failure at the `localStorage` boundary. -/
inductive StorageErr where
  | quotaExceeded
  | storageDisabled
  | malformedJson
deriving DecidableEq, Repr

/-- The blob stored under the configured key: either well-formed JSON for a
metric array, or corrupt text on which `JSON.parse` throws. -/
inductive StoredBlob where
  | corrupt
  | wellFormed (l : List Metric)
deriving DecidableEq, Repr

/-- The state of the browser storage restricted to the configured key. -/
structure Storage where
  contents : Option StoredBlob
  failing : Bool
deriving DecidableEq, Repr

/-- `localStorage.getItem(key)` followed by `JSON.parse`: throws when the
storage is failing or the blob is corrupt. -/
def getParsedItem (s : Storage) : Except StorageErr (Option (List Metric)) :=
  if s.failing then Except.error StorageErr.storageDisabled
  else
    match s.contents with
    | none => Except.ok none
    | some StoredBlob.corrupt => Except.error StorageErr.malformedJson
    | some (StoredBlob.wellFormed l) => Except.ok (some l)

/-- `localStorage.setItem(key, JSON.stringify(metrics))`: throws when the
storage is failing (quota exceeded). -/
def setItem (s : Storage) (metrics : List Metric) : Except StorageErr Storage :=
  if s.failing then Except.error StorageErr.quotaExceeded
  else Except.ok { s with contents := some (StoredBlob.wellFormed metrics) }

/-- `localStorage.removeItem(key)`: throws when the storage is failing. -/
def removeItem (s : Storage) : Except StorageErr Storage :=
  if s.failing then Except.error StorageErr.storageDisabled
  else Except.ok { s with contents := none }

/-- The mount-time load effect: `try { getItem; parse; slice } catch { warn }`.
Every failure is absorbed and leaves the in-memory metrics empty. -/
def loadEffect (cap : Nat) (s : Storage) : List Metric :=
  match getParsedItem s with
  | Except.ok (some l) => jsSliceLast l cap
  | Except.ok none => []
  | Except.error _ => []

/-- The save effect run after every metrics change:
`if (!isLoading && metrics.length > 0) try { setItem } catch { warn }`.
A failed write is absorbed and leaves the storage unchanged. -/
def saveEffect (isLoading : Bool) (metrics : List Metric) (s : Storage) : Storage :=
  if isLoading = false ∧ metrics ≠ [] then
    match setItem s metrics with
    | Except.ok s2 => s2
    | Except.error _ => s
  else s

/-- `recordMetric` together with the persistence write that follows the
state change; the write failure is absorbed, so the call never throws and
the returned in-memory state does not depend on the storage outcome. -/
def recordWithPersist (cap : Nat) (prev : List Metric) (m : Metric)
    (s : Storage) : List Metric × Storage :=
  let updated := recordMetric cap prev m
  (updated, saveEffect false updated s)

/-- `clearMetrics` of the second implementation (file `part_007`):
`setMetrics([]); localStorage.removeItem(KEY)` with no `try/catch` — the
in-memory store is emptied, and a storage failure propagates. -/
def clearMetrics7 (s : Storage) : List Metric × Except StorageErr Storage :=
  ([], removeItem s)

/-- `clearMetrics` of the first implementation (file `part_006`): the same,
guarded by `enableLocalStorage` (and the browser check), still with no
`try/catch` around `removeItem`. -/
def clearMetrics6 (enableLocalStorage : Bool) (s : Storage) :
    List Metric × Except StorageErr Storage :=
  ([], if enableLocalStorage then removeItem s else Except.ok s)

/-! ## Concrete sample inputs used by the scenario clauses and witnesses -/

/-- A list of `n` distinct metrics whose original insertion index is
readable off the `value` and `timestamp` fields. -/
def c1Sample (n : Nat) : List Metric :=
  (List.range n).map (fun (i : Nat) =>
    { name := "M", value := (i : ℚ), rating := Rating.good, timestamp := (i : ℤ) })

/-! ## Helper lemmas -/

theorem jsSliceLast_of_pos (l : List α) (k : Nat) (hk : 0 < k) :
    jsSliceLast l k = l.drop (l.length - k) := by
  simp [jsSliceLast, Nat.pos_iff_ne_zero.mp hk]

/-- Starting from the empty store, the fold of `recordMetric` over any
list of normalized metrics keeps exactly the suffix that fits the
capacity. -/
theorem foldl_recordMetric_eq_drop (cap : Nat) (hcap : 0 < cap) (l : List Metric) :
    List.foldl (recordMetric cap) [] l = l.drop (l.length - cap) := by
  induction l using List.reverseRecOn with
  | nil => simp
  | append_singleton l m ih =>
    rw [List.foldl_append, List.foldl_cons, List.foldl_nil, ih]
    show jsSliceLast (l.drop (l.length - cap) ++ [m]) cap = _
    rw [jsSliceLast_of_pos _ _ hcap,
        ← List.drop_append_of_le_length (by omega : l.length - cap ≤ l.length),
        List.drop_drop]
    congr 1
    simp only [List.length_append, List.length_drop, List.length_cons, List.length_nil]
    omega

/-! ## Claims -/

/-- Claim C1: after any sequence of `record` calls with capacity `C > 0`,
the store is exactly the suffix of the recorded metrics of length
`min(number recorded, C)`, in original insertion order (every intermediate
state is the fold over the corresponding prefix of the calls, so the
universally quantified list covers the state after each call); in
particular, after recording 1200 metrics with the default capacity 1000,
the store has exactly 1000 entries and its head is the metric recorded at
original insertion index 200. -/
theorem C1_store_capacity_fifo :
    (∀ (cap : Nat) (l : List Metric), 0 < cap →
      List.foldl (recordMetric cap) [] l = l.drop (l.length - cap) ∧
      (List.foldl (recordMetric cap) [] l).length = min l.length cap) ∧
    (List.foldl (recordMetric 1000) [] (c1Sample 1200)).length = 1000 ∧
    (List.foldl (recordMetric 1000) [] (c1Sample 1200)).head? = (c1Sample 1200)[200]? := by
  have key : ∀ (cap : Nat) (l : List Metric), 0 < cap →
      List.foldl (recordMetric cap) [] l = l.drop (l.length - cap) :=
    fun cap l h => foldl_recordMetric_eq_drop cap h l
  have hlen : (c1Sample 1200).length = 1200 := by simp [c1Sample]
  refine ⟨fun cap l h => ⟨key cap l h, ?_⟩, ?_, ?_⟩
  · rw [key cap l h, List.length_drop]; omega
  · rw [key 1000 _ (by omega), List.length_drop, hlen]
  · rw [key 1000 _ (by omega), hlen]
    rw [List.head?_eq_getElem?, List.getElem?_drop]

/-- Witness for C1: the capacity bound applied at capacity 3 to five
concrete records. -/
theorem C1_store_capacity_fifo_witness :
    List.foldl (recordMetric 3) [] (c1Sample 5)
      = (c1Sample 5).drop ((c1Sample 5).length - 3) :=
  (C1_store_capacity_fifo.1 3 (c1Sample 5) (by norm_num)).1

/-- A metric sitting exactly on the window boundary used by claim C2. -/
def boundaryMetric : Metric :=
  { name := "LCP", value := 1, rating := Rating.good, timestamp := 500 }

/-- Counterexample to claim C2: the time filter of `getMetrics` is strict
(`m.timestamp > now - timeRange`), so a metric whose timestamp is exactly
`now - window` is excluded, contrary to the claimed inclusive bound; and
the name filter is skipped entirely for the falsy empty-string name, so
`query("")` does not return only metrics named `""`. -/
theorem C2_window_boundary_counterexample :
    (getMetrics [boundaryMetric] 1000 none (some 500) = [] ∧
      boundaryMetric.timestamp = 1000 - 500) ∧
    (getMetrics [boundaryMetric] 1000 (some "") none = [boundaryMetric] ∧
      boundaryMetric.name ≠ "") := by
  refine ⟨⟨?_, rfl⟩, ⟨rfl, by decide⟩⟩
  simp [getMetrics, boundaryMetric]

/-- Claim C2 as amended: for a truthy (nonempty) name filter, `query`
returns exactly the subsequence of metrics whose name equals it exactly;
for a truthy (nonzero) window `w`, `query` returns exactly the subsequence
of metrics with `timestamp > now - w` (a metric with timestamp exactly
`now - w` is excluded); with both filters they compose; `query` is a pure
function of the store, so it has no side effects. -/
theorem C2_query_filters :
    (∀ (ms : List Metric) (now : ℤ) (n : String), n ≠ "" →
      getMetrics ms now (some n) none = ms.filter (fun m => m.name = n)) ∧
    (∀ (ms : List Metric) (now : ℤ) (w : ℤ), w ≠ 0 →
      getMetrics ms now none (some w) = ms.filter (fun m => decide (now - w < m.timestamp))) ∧
    (∀ (ms : List Metric) (now : ℤ) (n : String) (w : ℤ), n ≠ "" → w ≠ 0 →
      getMetrics ms now (some n) (some w) =
        (ms.filter (fun m => m.name = n)).filter (fun m => decide (now - w < m.timestamp))) := by
  refine ⟨?_, ?_, ?_⟩ <;> intros <;> simp [getMetrics, *]

/-- Witness for C2: the name filter applied to a concrete store. -/
theorem C2_query_filters_witness :
    getMetrics [boundaryMetric] 1000 (some "LCP") none
      = [boundaryMetric].filter (fun m => m.name = "LCP") :=
  C2_query_filters.1 [boundaryMetric] 1000 "LCP" (by decide)

/-- `goodCount > ratings.length / 2` over JavaScript number division is
the strict-majority condition over the naturals. -/
theorem half_lt_cast_iff (L g : ℕ) : ((L : ℚ) / 2 < (g : ℚ)) ↔ L < 2 * g := by
  rw [div_lt_iff₀ (by norm_num : (0:ℚ) < 2)]
  norm_cast
  omega

/-- Case characterization of the rating vote of `getAverages`. -/
theorem aggRating_cases (metricList : List Metric) :
    (aggRating metricList = Rating.good ↔
        (jsSliceLast metricList 5).length <
          2 * ((jsSliceLast metricList 5).filter (fun m => m.rating = Rating.good)).length) ∧
    (aggRating metricList = Rating.needsImprovement ↔
        0 < ((jsSliceLast metricList 5).filter (fun m => m.rating = Rating.good)).length ∧
        2 * ((jsSliceLast metricList 5).filter (fun m => m.rating = Rating.good)).length ≤
          (jsSliceLast metricList 5).length) ∧
    (aggRating metricList = Rating.poor ↔
        ((jsSliceLast metricList 5).filter (fun m => m.rating = Rating.good)).length = 0) := by
  simp only [aggRating]
  split_ifs with h1 h2
  · rw [half_lt_cast_iff] at h1
    exact ⟨iff_of_true rfl h1,
      iff_of_false (by decide) (fun h => by omega),
      iff_of_false (by decide) (fun h => by omega)⟩
  · rw [half_lt_cast_iff] at h1
    exact ⟨iff_of_false (by decide) (fun h => h1 h),
      iff_of_true rfl ⟨h2, by omega⟩,
      iff_of_false (by decide) (fun h => by omega)⟩
  · rw [half_lt_cast_iff] at h1
    exact ⟨iff_of_false (by decide) (fun h => by omega),
      iff_of_false (by decide) (fun h => by omega),
      iff_of_true rfl (by omega)⟩

/-- An aggregate listed by `getAverages` is the one computed for its name
group. -/
theorem mem_getAverages6 {ms : List Metric} {now : ℤ} {tr : Option ℤ}
    {n : String} {a : V6.Aggregate} (h : (n, a) ∈ V6.getAverages ms now tr) :
    a = V6.aggregateFor (getMetrics ms now none tr) n := by
  simp only [V6.getAverages, List.mem_map] at h
  obtain ⟨x, hx, hxe⟩ := h
  injection hxe with h1 h2
  subst h1
  exact h2.symm

/-- Claim C3: for every metric group listed by `getAverages`, the aggregate
rating is decided by the up-to-five most recent entries in insertion
order: `good` exactly when strictly more than half of them are rated good,
`needs-improvement` exactly when the good entries are a tie or a non-zero
minority, and `poor` exactly when none of them is rated good. -/
theorem C3_rating_majority (ms : List Metric) (now : ℤ) (tr : Option ℤ)
    (n : String) (a : V6.Aggregate) (h : (n, a) ∈ V6.getAverages ms now tr) :
    (a.rating = Rating.good ↔
        (jsSliceLast ((getMetrics ms now none tr).filter (fun m => m.name = n)) 5).length <
          2 * ((jsSliceLast ((getMetrics ms now none tr).filter (fun m => m.name = n)) 5).filter
                (fun m => m.rating = Rating.good)).length) ∧
    (a.rating = Rating.needsImprovement ↔
        0 < ((jsSliceLast ((getMetrics ms now none tr).filter (fun m => m.name = n)) 5).filter
              (fun m => m.rating = Rating.good)).length ∧
        2 * ((jsSliceLast ((getMetrics ms now none tr).filter (fun m => m.name = n)) 5).filter
              (fun m => m.rating = Rating.good)).length ≤
          (jsSliceLast ((getMetrics ms now none tr).filter (fun m => m.name = n)) 5).length) ∧
    (a.rating = Rating.poor ↔
        ((jsSliceLast ((getMetrics ms now none tr).filter (fun m => m.name = n)) 5).filter
            (fun m => m.rating = Rating.good)).length = 0) := by
  have ha := mem_getAverages6 h
  subst ha
  exact aggRating_cases _

/-- Five metrics for one name whose last five ratings are
`[good, good, poor, poor, poor]`, the scenario of claim C4. -/
def ratingSample : List Metric :=
  [{ name := "X", value := 1, rating := Rating.good, timestamp := 1 },
   { name := "X", value := 1, rating := Rating.good, timestamp := 2 },
   { name := "X", value := 1, rating := Rating.poor, timestamp := 3 },
   { name := "X", value := 1, rating := Rating.poor, timestamp := 4 },
   { name := "X", value := 1, rating := Rating.poor, timestamp := 5 }]

/-- The group of `ratingSample` is listed by `getAverages` with its
computed aggregate. -/
theorem ratingSample_mem :
    ("X", V6.aggregateFor (getMetrics ratingSample 0 none none) "X")
      ∈ V6.getAverages ratingSample 0 none := by
  show _ ∈ (namesInOrder (getMetrics ratingSample 0 none none)).map
    (fun name => (name, V6.aggregateFor (getMetrics ratingSample 0 none none) name))
  exact List.mem_map_of_mem _ (by decide)

/-- Witness for C3: the `poor` characterization applied to the concrete
five-metric group. -/
theorem C3_rating_majority_witness :
    (("X", V6.aggregateFor (getMetrics ratingSample 0 none none) "X")
        ∈ V6.getAverages ratingSample 0 none) ∧
    ((V6.aggregateFor (getMetrics ratingSample 0 none none) "X").rating = Rating.poor ↔
        ((jsSliceLast ((getMetrics ratingSample 0 none none).filter (fun m => m.name = "X")) 5).filter
            (fun m => m.rating = Rating.good)).length = 0) :=
  ⟨ratingSample_mem,
    (C3_rating_majority ratingSample 0 none "X" _ ratingSample_mem).2.2⟩

/-- Counterexample to claim C4: for the group whose five most recent
ratings are `[good, good, poor, poor, poor]`, the aggregate rating computed
by `getAverages` is `needs-improvement`, not `poor` as claimed — two good
entries out of five fail the strict majority but are nonzero, which the
code maps to the middle bucket. -/
theorem C4_two_good_counterexample :
    (V6.getAverages ratingSample 0 none).map (fun p => (p.1, p.2.rating))
      = [("X", Rating.needsImprovement)] ∧
    Rating.needsImprovement ≠ Rating.poor := by
  constructor
  · simp [V6.getAverages, V6.aggregateFor, getMetrics, namesInOrder, ratingSample,
      aggRating, jsSliceLast]
    norm_num
  · decide

/-- Claim C4 as amended: for a group whose five most recent ratings are
`[good, good, poor, poor, poor]`, the aggregate rating computed by
`getAverages` is `needs-improvement` (a non-zero, non-majority good
count). -/
theorem C4_two_good_needs_improvement :
    (V6.getAverages ratingSample 0 none).map (fun p => (p.1, p.2.rating))
      = [("X", Rating.needsImprovement)] := by
  simp [V6.getAverages, V6.aggregateFor, getMetrics, namesInOrder, ratingSample,
    aggRating, jsSliceLast]
  norm_num

/-- The `firstAvg` local of the trend computation. -/
def firstHalfAvg (g : List Metric) : ℚ :=
  listMean ((g.take (g.length / 2)).map (fun m => m.value))

/-- The `secondAvg` local of the trend computation. -/
def secondHalfAvg (g : List Metric) : ℚ :=
  listMean ((g.drop (g.length / 2)).map (fun m => m.value))

/-- The `change` local of the trend computation:
`(secondAvg - firstAvg) / firstAvg`. -/
def relChange (g : List Metric) : ℚ :=
  (secondHalfAvg g - firstHalfAvg g) / firstHalfAvg g

/-- Case characterization of the trend computation of `getAverages`. -/
theorem aggTrend_cases (name : String) (g : List Metric) :
    (g.length < 10 → aggTrend name g = Trend.stable) ∧
    (10 ≤ g.length → |relChange g| ≤ 1/10 → aggTrend name g = Trend.stable) ∧
    (10 ≤ g.length → 1/10 < |relChange g| → name ∈ lowerBetterNames →
      aggTrend name g = (if relChange g < 0 then Trend.improving else Trend.declining)) ∧
    (10 ≤ g.length → 1/10 < |relChange g| → name ∉ lowerBetterNames →
      aggTrend name g = (if 0 < relChange g then Trend.improving else Trend.declining)) := by
  simp only [aggTrend, firstHalfAvg, secondHalfAvg, relChange, listMean]
  refine ⟨fun h => ?_, fun h1 h2 => ?_, fun h1 h2 h3 => ?_, fun h1 h2 h3 => ?_⟩
  · rw [if_neg (by omega)]
  · rw [if_pos h1, if_neg (not_lt.mpr h2)]
  · rw [if_pos h1, if_pos h2, if_pos h3]
  · rw [if_pos h1, if_pos h2, if_neg h3]

/-- Ten metrics named `LCP` whose first-half mean is 3000 and second-half
mean is 2000, the scenario of claim C5. -/
def lcpTrendSample : List Metric :=
  (List.range 10).map (fun (i : Nat) =>
    { name := "LCP", value := if i < 5 then (3000:ℚ) else 2000, rating := Rating.good,
      timestamp := (i : ℤ) })

/-- Claim C5: for every metric group listed by `getAverages`, the trend is
`stable` below ten samples; with at least ten samples and a well-defined
relative change (nonzero first-half mean; with a zero first-half mean
JavaScript produces an infinite or NaN change, which the rational model
does not represent), a change within the ten-percent threshold is
`stable`, and beyond it the polarity-inverted names `LCP, CLS, FID, TTFB`
improve on a negative change and decline on a positive one, while all
other names do the opposite. In particular the concrete ten-sample `LCP`
group with half means 3000 and 2000 is `improving`. -/
theorem C5_trend_classification :
    (∀ (ms : List Metric) (now : ℤ) (tr : Option ℤ) (n : String) (a : V6.Aggregate),
      (n, a) ∈ V6.getAverages ms now tr →
      ∀ g : List Metric, g = (getMetrics ms now none tr).filter (fun m => m.name = n) →
      (g.length < 10 → a.trend = Trend.stable) ∧
      (10 ≤ g.length → firstHalfAvg g ≠ 0 → |relChange g| ≤ 1/10 →
        a.trend = Trend.stable) ∧
      (10 ≤ g.length → firstHalfAvg g ≠ 0 → 1/10 < |relChange g| →
        n ∈ lowerBetterNames →
        a.trend = (if relChange g < 0 then Trend.improving else Trend.declining)) ∧
      (10 ≤ g.length → firstHalfAvg g ≠ 0 → 1/10 < |relChange g| →
        n ∉ lowerBetterNames →
        a.trend = (if 0 < relChange g then Trend.improving else Trend.declining))) ∧
    (V6.getAverages lcpTrendSample 0 none).map (fun p => (p.1, p.2.trend))
      = [("LCP", Trend.improving)] := by
  constructor
  · intro ms now tr n a h g hg
    have ha := mem_getAverages6 h
    subst ha
    subst hg
    have hc := aggTrend_cases n ((getMetrics ms now none tr).filter (fun m => m.name = n))
    exact ⟨fun h1 => hc.1 h1,
      fun h1 _ h2 => hc.2.1 h1 h2,
      fun h1 _ h2 h3 => hc.2.2.1 h1 h2 h3,
      fun h1 _ h2 h3 => hc.2.2.2 h1 h2 h3⟩
  · simp [V6.getAverages, V6.aggregateFor, getMetrics, namesInOrder, lcpTrendSample,
      aggTrend, jsSliceLast, listMean, lowerBetterNames, List.range_succ]
    norm_num [abs_of_nonneg]

/-- Witness for C5: the below-ten-samples clause applied to a concrete
one-metric store. -/
theorem C5_trend_classification_witness :
    (("LCP", V6.aggregateFor (getMetrics [boundaryMetric] 0 none none) "LCP")
        ∈ V6.getAverages [boundaryMetric] 0 none) ∧
    (V6.aggregateFor (getMetrics [boundaryMetric] 0 none none) "LCP").trend
      = Trend.stable := by
  have hmem : ("LCP", V6.aggregateFor (getMetrics [boundaryMetric] 0 none none) "LCP")
      ∈ V6.getAverages [boundaryMetric] 0 none := by
    show _ ∈ (namesInOrder (getMetrics [boundaryMetric] 0 none none)).map
      (fun name => (name, V6.aggregateFor (getMetrics [boundaryMetric] 0 none none) name))
    exact List.mem_map_of_mem _ (by decide)
  exact ⟨hmem,
    (C5_trend_classification.1 [boundaryMetric] 0 none "LCP" _ hmem _ rfl).1 (by decide)⟩

/-- The score contributed by one core vital: the rating of the latest
metric of that name among the recent metrics, mapped through the
100/75/25 table, or nothing when the vital is absent. -/
def vitalLatestScore (recentMetrics : List Metric) (vital : String) : Option ℚ :=
  ((recentMetrics.filter (fun m => m.name = vital)).getLast?).map
    (fun m => scoreOfRating m.rating)

/-- The score/count fold of `getPerformanceScore` accumulates exactly the
sum and the number of the present vitals' scores. -/
theorem score_foldl_eq (recentMetrics : List Metric) (vitals : List String)
    (acc : ℚ × Nat) :
    vitals.foldl
      (fun (acc : ℚ × Nat) vital =>
        let vitalMetrics := recentMetrics.filter (fun m => m.name = vital)
        match vitalMetrics.getLast? with
        | some latestMetric => (acc.1 + scoreOfRating latestMetric.rating, acc.2 + 1)
        | none => acc)
      acc
    = (acc.1 + (vitals.filterMap (vitalLatestScore recentMetrics)).sum,
       acc.2 + (vitals.filterMap (vitalLatestScore recentMetrics)).length) := by
  induction vitals generalizing acc with
  | nil => simp
  | cons v vs ih =>
    rw [List.foldl_cons, List.filterMap_cons]
    rcases hlast : (recentMetrics.filter (fun m => m.name = v)).getLast? with _ | m
    · simp only [vitalLatestScore, hlast, Option.map_none']
      rw [ih]
    · simp only [vitalLatestScore, hlast, Option.map_some']
      rw [ih]
      simp only [List.sum_cons, List.length_cons, Prod.mk.injEq]
      exact ⟨by ring, by omega⟩

/-- A store with only `LCP` rated good and `FID` rated poor in the
24-hour window, the scenario of claim C6. -/
def scoreSample : List Metric :=
  [{ name := "LCP", value := 1200, rating := Rating.good, timestamp := 990 },
   { name := "FID", value := 10, rating := Rating.poor, timestamp := 995 }]

/-- Claim C6: `getPerformanceScore` depends only on the core vitals
`LCP, FID, CLS` among the metrics of the considered 24-hour window; each
present vital contributes its most recent metric's rating mapped through
good→100, needs-improvement→75, poor→25, the result is the unweighted mean
of the present scores rounded half-up, and it is `null` exactly when none
of the three vitals is present. With only `LCP: good` and `FID: poor`
present, the score is 63. -/
theorem C6_overall_score :
    (∀ (ms : List Metric) (now : ℤ),
      performanceScoreOf ms now =
        (if (coreVitals.filterMap
              (vitalLatestScore (getMetrics ms now none (some (24 * 60 * 60 * 1000))))).isEmpty
         then none
         else some (jsRound
            ((coreVitals.filterMap
                (vitalLatestScore (getMetrics ms now none (some (24 * 60 * 60 * 1000))))).sum /
             ((coreVitals.filterMap
                (vitalLatestScore (getMetrics ms now none (some (24 * 60 * 60 * 1000))))).length : ℚ))))) ∧
    performanceScoreOf scoreSample 1000 = some 63 := by
  constructor
  · intro ms now
    simp only [performanceScoreOf]
    rw [score_foldl_eq]
    simp only [zero_add, Nat.zero_add]
    rcases hl : coreVitals.filterMap
        (vitalLatestScore (getMetrics ms now none (some (24 * 60 * 60 * 1000)))) with _ | ⟨x, xs⟩
    · simp
    · simp
  · simp [performanceScoreOf, getMetrics, coreVitals, scoreSample, scoreOfRating, jsRound]
    norm_num

/-- A record-call input that supplies its own timestamp. -/
def tsInput (t : ℤ) : MetricInput :=
  { name := "M", value := 1, rating := Rating.good, timestamp := some t }

/-- A record-call input that leaves the timestamp to the clock. -/
def noTsInput : MetricInput := { name := "M", value := 1, rating := Rating.good }

/-- Counterexample to claim C7: `recordMetric` accepts a caller-supplied
timestamp unchecked, so two calls supplying timestamps 100 then 50 leave
the store's timestamps out of order. -/
theorem C7_supplied_timestamp_counterexample :
    ((runRecords 1000 none [(1000, tsInput 100), (1001, tsInput 50)]).map
        (fun m => m.timestamp)) = [100, 50] ∧
    ¬ List.Sorted (· ≤ ·) ((runRecords 1000 none [(1000, tsInput 100), (1001, tsInput 50)]).map
        (fun m => m.timestamp)) := by
  have h1 : ((runRecords 1000 none [(1000, tsInput 100), (1001, tsInput 50)]).map
      (fun m => m.timestamp)) = [100, 50] := by decide
  refine ⟨h1, ?_⟩
  rw [h1]
  decide

/-- Claim C7 as amended: for record calls that do not supply their own
timestamp, stamped from a non-decreasing clock (`Date.now()` within a
session), the stored timestamps are monotonically non-decreasing in
insertion order; a call supplying its own timestamp can break this. -/
theorem C7_monotone_when_clocked :
    ∀ (cap : Nat) (path : Option String) (calls : List (ℤ × MetricInput)),
      0 < cap →
      (∀ c ∈ calls, c.2.timestamp = none) →
      List.Sorted (· ≤ ·) (calls.map Prod.fst) →
      List.Sorted (· ≤ ·) ((runRecords cap path calls).map (fun m => m.timestamp)) := by
  intro cap path calls hcap hnone hsorted
  have hfm : runRecords cap path calls
      = List.foldl (recordMetric cap) [] (calls.map (fun c => mkMetric c.1 path c.2)) :=
    (List.foldl_map (fun (c : ℤ × MetricInput) => mkMetric c.1 path c.2)
      (recordMetric cap) calls []).symm
  have h1 : runRecords cap path calls
      = (calls.map (fun c => mkMetric c.1 path c.2)).drop
          ((calls.map (fun c => mkMetric c.1 path c.2)).length - cap) := by
    rw [hfm]
    exact foldl_recordMetric_eq_drop cap hcap _
  rw [h1, List.map_drop]
  have h2 : (calls.map (fun c => mkMetric c.1 path c.2)).map (fun m => m.timestamp)
      = calls.map Prod.fst := by
    rw [List.map_map]
    exact List.map_congr_left (fun c hc => by
      simp [mkMetric, jsOrTimestamp, hnone c hc])
  rw [h2]
  exact List.Pairwise.sublist (List.drop_sublist _ _) hsorted

/-- Witness for C7: two clock-stamped calls with a non-decreasing clock. -/
theorem C7_monotone_when_clocked_witness :
    List.Sorted (· ≤ ·) ((runRecords 1000 none [(1, noTsInput), (2, noTsInput)]).map
      (fun m => m.timestamp)) :=
  C7_monotone_when_clocked 1000 none [(1, noTsInput), (2, noTsInput)] (by norm_num)
    (by decide) (by decide)

/-- A storage state whose operations fail (quota exceeded or storage
disabled). -/
def failingStorage : Storage :=
  { contents := some (StoredBlob.wellFormed []), failing := true }

/-- A healthy storage state holding one persisted metric. -/
def okStorage : Storage :=
  { contents := some (StoredBlob.wellFormed [boundaryMetric]), failing := false }

/-- Counterexample to claim C8: `clearMetrics` calls
`localStorage.removeItem` outside any `try/catch` in both implementations,
so with a failing storage the clear operation propagates the storage error
to its caller instead of absorbing it. -/
theorem C8_clear_throws_counterexample :
    (clearMetrics7 failingStorage).2 = Except.error StorageErr.storageDisabled ∧
    (clearMetrics6 true failingStorage).2 = Except.error StorageErr.storageDisabled :=
  ⟨rfl, rfl⟩

/-- Claim C8 as amended: the persistence load and save boundaries absorb
every failure (a failing or malformed load yields the empty in-memory
store, a failing save leaves the storage unchanged, and the in-memory
result of a record call never depends on the storage outcome), and `query`
is a pure function; but `clear`, while always emptying the in-memory
store, propagates a storage failure from its unguarded `removeItem`. -/
theorem C8_failures_absorbed_except_clear :
    (∀ (cap : Nat) (s : Storage), s.failing = true → loadEffect cap s = []) ∧
    (∀ (cap : Nat) (s : Storage), s.contents = some StoredBlob.corrupt →
      loadEffect cap s = []) ∧
    (∀ (isLoading : Bool) (ms : List Metric) (s : Storage), s.failing = true →
      saveEffect isLoading ms s = s) ∧
    (∀ (cap : Nat) (prev : List Metric) (m : Metric) (s : Storage),
      (recordWithPersist cap prev m s).1 = recordMetric cap prev m) ∧
    (∀ (s : Storage), (clearMetrics7 s).1 = [] ∧
      (s.failing = true → (clearMetrics7 s).2 = Except.error StorageErr.storageDisabled)) := by
  refine ⟨?_, ?_, ?_, fun _ _ _ _ => rfl, fun s => ⟨rfl, ?_⟩⟩
  · intro cap s h
    simp [loadEffect, getParsedItem, h]
  · intro cap s h
    by_cases hf : s.failing <;> simp [loadEffect, getParsedItem, h, hf]
  · intro isLoading ms s h
    by_cases hg : isLoading = false ∧ ms ≠ [] <;> simp [saveEffect, setItem, h, hg]
  · intro h
    simp [clearMetrics7, removeItem, h]

/-- Witness for C8: absorption applied to a concrete failing storage. -/
theorem C8_failures_absorbed_except_clear_witness :
    loadEffect 1000 failingStorage = [] ∧
    saveEffect false [boundaryMetric] failingStorage = failingStorage :=
  ⟨C8_failures_absorbed_except_clear.1 1000 failingStorage rfl,
   C8_failures_absorbed_except_clear.2.2.1 false [boundaryMetric] failingStorage rfl⟩

/-- Claim C9: with persistence enabled and a healthy storage, `clear()`
empties the store, a subsequent no-argument `query()` returns the empty
sequence, the persisted copy at the configured key is removed, and the
post-clear save effect does not re-create it (the save is guarded on a
nonempty metrics list). -/
theorem C9_clear_then_query_empty :
    ∀ (s : Storage) (now : ℤ), s.failing = false →
      (clearMetrics6 true s).1 = [] ∧
      getMetrics (clearMetrics6 true s).1 now none none = [] ∧
      (clearMetrics6 true s).2 = Except.ok { s with contents := none } ∧
      saveEffect false (clearMetrics6 true s).1 { s with contents := none }
        = { s with contents := none } := by
  intro s now h
  refine ⟨rfl, rfl, ?_, ?_⟩
  · simp [clearMetrics6, removeItem, h]
  · simp [saveEffect, clearMetrics6]

/-- Witness for C9: clear on a concrete healthy storage. -/
theorem C9_clear_then_query_empty_witness :
    (clearMetrics6 true okStorage).1 = [] ∧
    (clearMetrics6 true okStorage).2 = Except.ok { okStorage with contents := none } :=
  ⟨(C9_clear_then_query_empty okStorage 0 rfl).1,
   (C9_clear_then_query_empty okStorage 0 rfl).2.2.1⟩

/-- Claim C10: the two duplicate monitor implementations are
aggregate-equivalent — on every metric list and window, their
`getAverages` results agree on name, average, count, rating, and trend
for every group (in the same order), and their `getPerformanceScore`
results are equal. -/
theorem C10_impl_equivalence :
    ∀ (ms : List Metric) (now : ℤ) (tr : Option ℤ),
      (V6.getAverages ms now tr).map
          (fun p => (p.1, p.2.average, p.2.count, p.2.rating, p.2.trend))
        = (V7.getAverages ms now tr).map
          (fun p => (p.1, p.2.average, p.2.count, p.2.rating, p.2.trend)) ∧
      V6.getPerformanceScore ms now = V7.getPerformanceScore ms now := by
  intro ms now tr
  refine ⟨?_, rfl⟩
  simp only [V6.getAverages, V7.getAverages, List.map_map]
  rfl

end PerfMon
